import Mathlib

/-!
Verification development for the PDF learning platform repository.

Two components are embedded here:

1. The document segmenter. The repository invokes a Python script
   `backend/services/process_pdf_blocks.py` from its Node callers, but that
   script itself is not part of the shipped sources; only its callers and the
   README describing its heuristics are. The segmenter definitions below are
   therefore modelled from the specification (section 3 data model, section
   4.1 algorithm, and the README notes on `is_heading`, `get_heading_level`,
   `is_metadata_section`, page threshold and minimum block count).

2. The summarizer post-processing in `backend/services/summarizer.js`, which
   is present in the sources and is embedded directly. The network call to
   the model is abstracted as an oracle value (`LlmResponse`); everything the
   function does around that call is translated faithfully.
-/

namespace PdfPlatform

/-! ## Character and list helpers -/

/-- Does `pat` occur as a leading segment of `l`? -/
def firstMatches : List Char → List Char → Bool
  | [], _ => true
  | _ :: _, [] => false
  | p :: ps, c :: cs => p == c && firstMatches ps cs

/-- Does `pat` occur as a contiguous sublist of `l`? -/
def subOccurs (pat : List Char) : List Char → Bool
  | [] => firstMatches pat []
  | c :: cs => firstMatches pat (c :: cs) || subOccurs pat cs

/-- Remove `pat` from the front of `l`, if it is a leading segment. -/
def dropPref : List Char → List Char → Option (List Char)
  | [], l => some l
  | _ :: _, [] => none
  | p :: ps, c :: cs => if p == c then dropPref ps cs else none

/-- Uppercased character list of a string (ASCII case folding, as in the
Python `.upper()` used by the script). -/
def upperChars (s : String) : List Char := s.data.map Char.toUpper

/-- Split a character list on the dot character. -/
def splitDots : List Char → List (List Char)
  | [] => [[]]
  | c :: cs =>
      if c == '.' then [] :: splitDots cs
      else
        match splitDots cs with
        | [] => [[c]]
        | t :: ts => (c :: t) :: ts

/-- Join buffered paragraph lines with single spaces. -/
def joinPara : List String → String
  | [] => ""
  | [s] => s
  | s :: t :: rest => s ++ " " ++ joinPara (t :: rest)

/-! ## Heading and metadata heuristics

Modelled from the spec: these stand in for the classification functions of
the missing `backend/services/process_pdf_blocks.py` (the README names them
`is_heading`, `get_heading_level`, `is_metadata_section`). -/

/-- Skip the leading run of digits, dots and spaces. -/
def afterNumberSkip : List Char → List Char
  | [] => []
  | c :: cs => if c.isDigit || c == '.' || c == ' ' then afterNumberSkip cs else c :: cs

/-- Modelled from the spec: numbered-heading pattern of the missing
`process_pdf_blocks.py` — the line starts with a number and the number is
followed (after dots and spaces) by a letter, so that a bare number such as
the line consisting only of a digit and a period is rejected. -/
def numberedHeading (l : List Char) : Bool :=
  match l with
  | [] => false
  | c :: _ =>
      c.isDigit &&
        (match afterNumberSkip l with
         | [] => false
         | d :: _ => d.isAlpha)

/-- Modelled from the spec: all-capitals heading pattern of the missing
`process_pdf_blocks.py` — at least 15 characters, no lowercase letter, and a
majority of the characters are letters. -/
def allCapsHeading (l : List Char) : Bool :=
  decide (15 ≤ l.length) && l.all (fun c => !c.isLower) &&
    decide (l.length < 2 * (l.filter Char.isAlpha).length)

/-- After removing `tag` from the front, is the next character a digit? -/
def afterTagDigit (tag : List Char) (l : List Char) : Bool :=
  match dropPref tag l with
  | some (c :: _) => c.isDigit
  | _ => false

/-- Modelled from the spec: the case-insensitive UNIT-n / CHAPTER-n heading
pattern of the missing `process_pdf_blocks.py`. -/
def unitChapterHeading (l : List Char) : Bool :=
  let u := l.map Char.toUpper
  afterTagDigit ("UNIT ".data) u || afterTagDigit ("CHAPTER ".data) u

/-- Modelled from the spec: `is_heading` of the missing
`process_pdf_blocks.py` — a candidate heading is at least 5 characters long
and matches the numbered, all-capitals, or UNIT/CHAPTER pattern. -/
def is_heading (line : String) : Bool :=
  let l := line.data
  decide (5 ≤ l.length) && (numberedHeading l || allCapsHeading l || unitChapterHeading l)

/-- The leading numeric token of a line: its maximal leading run of digits
and dots. -/
def leadNumTok (l : List Char) : List Char :=
  l.takeWhile (fun c => c.isDigit || c == '.')

/-- Number of nonempty dot-separated components of the leading numeric
token. -/
def numericComps (l : List Char) : Nat :=
  ((splitDots (leadNumTok l)).filter (fun t => !t.isEmpty)).length

/-- Modelled from the spec: `get_heading_level` of the missing
`process_pdf_blocks.py` — a single numeric component before the first period
or space (or no numeric component at all, as in an all-capitals heading)
gives level 1; a compound numeric component such as 1.1 gives level 2. -/
def get_heading_level (line : String) : Nat :=
  if 2 ≤ numericComps line.data then 2 else 1

/-- Modelled from the spec: `is_metadata_section` of the missing
`process_pdf_blocks.py` — case-insensitive substring match against the
configured boilerplate phrases. -/
def is_metadata_section (phrases : List String) (line : String) : Bool :=
  phrases.any (fun p => subOccurs (upperChars p) (upperChars line))

/-- A blank line: every character is whitespace (an empty line is blank). -/
def isBlankLine (line : String) : Bool := line.data.all Char.isWhitespace

/-! ## Data model (spec section 3) -/

/-- Raw extraction record payload: a text line, an image with its format, or
a table with its dimensions. -/
inductive RecordKind where
  | textLine (text : String)
  | image (format : String)
  | table (rows cols : Nat)
deriving DecidableEq, Repr

/-- Modelled from the spec: the RawExtractionRecord consumed by the missing
segmenter, reduced to the fields the algorithm reads (page number and typed
payload; the bounding box is only used upstream to establish the reading
order the records already arrive in). -/
structure RawRecord where
  pageNumber : Nat
  kind : RecordKind
deriving DecidableEq, Repr

/-- Block kinds. -/
inductive BlockKind where
  | text
  | image
  | table
deriving DecidableEq, Repr

/-- Block metadata: tables carry row and column counts, images carry the
format. -/
inductive BlockMeta where
  | noMeta
  | forTable (rows cols : Nat)
  | forImage (format : String)
deriving DecidableEq, Repr

/-- One ordered content block within a section. -/
structure Block where
  kind : BlockKind
  content : String
  order : Nat
  metadata : BlockMeta
deriving DecidableEq, Repr

/-- One kept section: 0-based order among kept sections, the literal heading
line that opened it, and its ordered blocks. -/
structure Section where
  order : Nat
  heading : String
  blocks : List Block
deriving DecidableEq, Repr

/-- Segmenter configuration (spec section 4.1). -/
structure Config where
  pageThreshold : Nat
  minBlocksPerSection : Nat
  metadataPhrases : List String
deriving Repr

/-- The fixed metadata phrase set of the script. -/
def defaultMetadataPhrases : List String :=
  ["Key Learning Outcomes", "Participant Handbook", "Table of Contents",
   "Unit Objectives", "At the end of this unit"]

/-- Default configuration: page threshold 3, minimum 5 blocks per section. -/
def defaultConfig : Config :=
  { pageThreshold := 3, minBlocksPerSection := 5,
    metadataPhrases := defaultMetadataPhrases }

/-- The section currently being accumulated: heading, emitted blocks, and
the pending paragraph buffer with the page its lines came from. -/
structure OpenSection where
  heading : String
  blocks : List Block
  buffer : List String
  bufferPage : Nat
deriving DecidableEq, Repr

/-- Segmenter state: the open section (if any), the metadata-span flag,
whether any section has ever been opened (the page threshold only gates the
first one), and the kept sections so far. -/
structure SegState where
  current : Option OpenSection
  inMetadataSpan : Bool
  openedAny : Bool
  kept : List Section
deriving DecidableEq, Repr

/-- Append a block to the open section; its order is the next counter value,
namely the number of blocks already emitted. -/
def pushBlock (c : OpenSection) (k : BlockKind) (content : String)
    (m : BlockMeta) : OpenSection :=
  { c with blocks := c.blocks ++ [{ kind := k, content := content,
                                    order := c.blocks.length, metadata := m }] }

/-- Emit the buffered paragraph (if any) as a single text block. -/
def flushPara (c : OpenSection) : OpenSection :=
  match c.buffer with
  | [] => c
  | _ => { (pushBlock c BlockKind.text (joinPara c.buffer) BlockMeta.noMeta)
             with buffer := [] }

/-- Modelled from the spec: section finalization of the missing
`process_pdf_blocks.py` — flush the paragraph buffer, then keep the section
(assigning it the next kept-section order) only if it has at least
`minBlocksPerSection` blocks; otherwise discard it and all its blocks
without consuming a sequence number. -/
def finalizeSection (cfg : Config) (st : SegState) : SegState :=
  match st.current with
  | none => st
  | some c =>
      let c := flushPara c
      if cfg.minBlocksPerSection ≤ c.blocks.length then
        { st with current := none,
                  kept := st.kept ++ [{ order := st.kept.length,
                                        heading := c.heading,
                                        blocks := c.blocks }] }
      else { st with current := none }

/-- Modelled from the spec: the text-line step of the missing
`process_pdf_blocks.py`. Page-threshold gating suppresses heading detection
before the first section opens; the metadata-phrase check takes precedence
over heading detection; level-1 headings finalize the open section and open
a new one (resetting the metadata span); level-2 headings are appended as
text blocks; other lines are buffered into paragraphs, with blank lines and
page changes as paragraph boundaries. -/
def processText (cfg : Config) (st : SegState) (page : Nat) (txt : String) :
    SegState :=
  if page ≤ cfg.pageThreshold ∧ st.openedAny = false then
    if is_metadata_section cfg.metadataPhrases txt = true then
      { st with inMetadataSpan := true }
    else st
  else if is_metadata_section cfg.metadataPhrases txt = true then
    { finalizeSection cfg st with inMetadataSpan := true }
  else if is_heading txt = true ∧ get_heading_level txt = 1 then
    let st1 := finalizeSection cfg st
    { st1 with current := some { heading := txt, blocks := [], buffer := [],
                                 bufferPage := page },
               openedAny := true, inMetadataSpan := false }
  else if st.inMetadataSpan = true then st
  else if is_heading txt = true ∧ get_heading_level txt = 2 then
    match st.current with
    | some c =>
        { st with current := some (pushBlock (flushPara c) BlockKind.text txt
                                     BlockMeta.noMeta) }
    | none => st
  else
    match st.current with
    | some c =>
        if isBlankLine txt = true then { st with current := some (flushPara c) }
        else if c.buffer ≠ [] ∧ c.bufferPage ≠ page then
          let c2 := { flushPara c with buffer := [txt], bufferPage := page }
          { st with current := some c2 }
        else
          let c2 := { c with buffer := c.buffer ++ [txt], bufferPage := page }
          { st with current := some c2 }
    | none => st

/-- Modelled from the spec: the per-record step of the missing
`process_pdf_blocks.py`. Images and tables are appended as blocks to the
open section (flushing the pending paragraph first, to keep reading order),
and are discarded when no section is open or a metadata span is active. -/
def processRecord (cfg : Config) (st : SegState) (r : RawRecord) : SegState :=
  match r.kind with
  | RecordKind.textLine txt => processText cfg st r.pageNumber txt
  | RecordKind.image fmt =>
      match st.current with
      | some c =>
          if st.inMetadataSpan = true then st
          else { st with current := some (pushBlock (flushPara c)
                           BlockKind.image "" (BlockMeta.forImage fmt)) }
      | none => st
  | RecordKind.table rows cols =>
      match st.current with
      | some c =>
          if st.inMetadataSpan = true then st
          else { st with current := some (pushBlock (flushPara c)
                           BlockKind.table "" (BlockMeta.forTable rows cols)) }
      | none => st

/-- The only segmenter error: the page number of a record decreased relative
to the immediately preceding record. -/
inductive MalformedInputError where
  | pageDecreased
deriving DecidableEq, Repr

/-- Initial segmenter state. -/
def initState : SegState :=
  { current := none, inMetadataSpan := false, openedAny := false, kept := [] }

/-- Modelled from the spec: the single pass of the missing
`process_pdf_blocks.py`, with the page-monotonicity contract check. -/
def segRun (cfg : Config) : SegState → Nat → List RawRecord →
    Except MalformedInputError SegState
  | st, _, [] => Except.ok st
  | st, lastPage, r :: rs =>
      if r.pageNumber < lastPage then Except.error MalformedInputError.pageDecreased
      else segRun cfg (processRecord cfg st r) r.pageNumber rs

/-- Modelled from the spec: `segment` of the missing
`process_pdf_blocks.py` — run the single pass over the records and finalize
the trailing section at end of input. -/
def segment (cfg : Config) (records : List RawRecord) :
    Except MalformedInputError (List Section) :=
  (segRun cfg initState 0 records).map (fun st => (finalizeSection cfg st).kept)

/-- Does the page number strictly decrease between two consecutive
records? -/
def pagesDecrease : List RawRecord → Bool
  | [] => false
  | [_] => false
  | a :: b :: rs =>
      decide (b.pageNumber < a.pageNumber) || pagesDecrease (b :: rs)

/-! ## Summarizer (from `backend/services/summarizer.js`) -/

/-- Outcome of the model call as observed by `generateSummary`: either the
call or the JSON parse (including a missing or non-string headline field)
threw, or it produced a headline string and an optional summary string. -/
inductive LlmResponse where
  | apiFailure
  | parsed (headline : String) (summary : Option String)
deriving DecidableEq, Repr

/-- The fixed fallback summary returned when summarization fails
(summarizer.js lines 97 to 100). -/
def fallbackSummary : String :=
  "Summary generation failed. Please review the full content."

/-- The first `n` characters of a string. -/
def takeChars (s : String) (n : Nat) : String := String.mk (s.data.take n)

/-- The section content embedded in the prompt: the first 3000 characters
with an ellipsis marker when the text is longer (summarizer.js lines 32 to
34). -/
def promptContent (sectionText : String) : String :=
  if 3000 < sectionText.length then takeChars sectionText 3000 ++ "..."
  else sectionText

/-- Split a character list on the space character, keeping empty pieces, as
the JavaScript split on a space does. -/
def splitSpaceChars : List Char → List (List Char)
  | [] => [[]]
  | c :: cs =>
      if c == ' ' then [] :: splitSpaceChars cs
      else
        match splitSpaceChars cs with
        | [] => [[c]]
        | t :: ts => (c :: t) :: ts

/-- The word list of a headline, as produced by the split on the space
character in summarizer.js line 81 (JavaScript split keeps empty pieces). -/
def headlineWords (h : String) : List String :=
  (splitSpaceChars h.data).map (fun l => String.mk l)

/-- Join words with single spaces, as the JavaScript join on a space does. -/
def joinSp : List String → String
  | [] => ""
  | [s] => s
  | s :: t :: rest => s ++ " " ++ joinSp (t :: rest)

/-- Result of `generateSummary`. -/
structure SummaryResult where
  headline : String
  summary : String
deriving DecidableEq, Repr

/-- `generateSummary` from summarizer.js lines 29 to 102, with the model
call abstracted as `resp`. On failure it falls back to the heading and the
fixed summary; on success the headline is truncated to 12 words with an
ellipsis when longer, empty headline and summary fields fall back to the
heading and to a fixed string. -/
def generateSummary (sectionText heading : String) (resp : LlmResponse) :
    SummaryResult :=
  match resp with
  | LlmResponse.apiFailure => { headline := heading, summary := fallbackSummary }
  | LlmResponse.parsed mh ms =>
      let words := headlineWords mh
      let mh2 := if 12 < words.length then joinSp (words.take 12) ++ "..."
                 else mh
      { headline := if mh2 = "" then heading else mh2,
        summary :=
          match ms with
          | none => "Summary not available."
          | some s => if s = "" then "Summary not available." else s }

/-! ## Concrete record streams used to exercise the segmenter -/

/-- A text-line record. -/
def tLine (p : Nat) (s : String) : RawRecord :=
  { pageNumber := p, kind := RecordKind.textLine s }

/-- A text block with the given content and order. -/
def tBlock (s : String) (o : Nat) : Block :=
  { kind := BlockKind.text, content := s, order := o,
    metadata := BlockMeta.noMeta }

/-- Input with two sufficiently large sections. -/
def c1Input : List RawRecord :=
  [ tLine 4 "1. Introduction", tLine 4 "Alpha", tLine 4 "", tLine 4 "Beta",
    tLine 4 "", tLine 4 "Gamma", tLine 4 "", tLine 4 "Delta", tLine 4 "",
    tLine 4 "Echo",
    tLine 5 "2. Methods", tLine 5 "Foo", tLine 5 "", tLine 5 "Bar",
    tLine 5 "", tLine 5 "Baz", tLine 5 "", tLine 5 "Qux", tLine 5 "",
    tLine 5 "Quux" ]

/-- Expected segmentation of `c1Input`. -/
def c1Expected : List Section :=
  [ { order := 0, heading := "1. Introduction",
      blocks := [tBlock "Alpha" 0, tBlock "Beta" 1, tBlock "Gamma" 2,
                 tBlock "Delta" 3, tBlock "Echo" 4] },
    { order := 1, heading := "2. Methods",
      blocks := [tBlock "Foo" 0, tBlock "Bar" 1, tBlock "Baz" 2,
                 tBlock "Qux" 3, tBlock "Quux" 4] } ]

/-- A bare numbered line inside an open section, surrounded by enough
content for the section to survive the minimum-block filter. -/
def c3Input : List RawRecord :=
  [ tLine 4 "1. Introduction", tLine 4 "1.", tLine 4 "", tLine 4 "Alpha",
    tLine 4 "", tLine 4 "Beta", tLine 4 "", tLine 4 "Gamma", tLine 4 "",
    tLine 4 "Delta" ]

/-- Expected segmentation of `c3Input`: the bare numbered line is an
ordinary text block. -/
def c3Expected : List Section :=
  [ { order := 0, heading := "1. Introduction",
      blocks := [tBlock "1." 0, tBlock "Alpha" 1, tBlock "Beta" 2,
                 tBlock "Gamma" 3, tBlock "Delta" 4] } ]

/-- A level-2 heading directly after a level-1 heading. -/
def c4Input : List RawRecord :=
  [ tLine 4 "1. Introduction", tLine 4 "1.1 Overview", tLine 4 "Alpha",
    tLine 4 "", tLine 4 "Beta", tLine 4 "", tLine 4 "Gamma", tLine 4 "",
    tLine 4 "Delta" ]

/-- Expected segmentation of `c4Input`: one section, with the level-2
heading kept as its first text block. -/
def c4Expected : List Section :=
  [ { order := 0, heading := "1. Introduction",
      blocks := [tBlock "1.1 Overview" 0, tBlock "Alpha" 1, tBlock "Beta" 2,
                 tBlock "Gamma" 3, tBlock "Delta" 4] } ]

/-- A metadata line followed by ten lines of boilerplate, then a level-1
heading with enough content to be kept. -/
def c5Input : List RawRecord :=
  [ tLine 4 "Key Learning Outcomes",
    tLine 4 "meta one", tLine 4 "meta two", tLine 4 "meta three",
    tLine 4 "meta four", tLine 4 "meta five", tLine 5 "meta six",
    tLine 5 "meta seven", tLine 5 "meta eight", tLine 5 "meta nine",
    tLine 5 "meta ten",
    tLine 5 "1. Introduction",
    tLine 5 "Alpha", tLine 5 "", tLine 5 "Beta", tLine 5 "",
    tLine 5 "Gamma", tLine 5 "", tLine 5 "Delta", tLine 5 "",
    tLine 5 "Echo" ]

/-- Expected segmentation of `c5Input`: none of the boilerplate lines
appear. -/
def c5Expected : List Section :=
  [ { order := 0, heading := "1. Introduction",
      blocks := [tBlock "Alpha" 0, tBlock "Beta" 1, tBlock "Gamma" 2,
                 tBlock "Delta" 3, tBlock "Echo" 4] } ]

/-- A line that is simultaneously a level-1 heading pattern and a metadata
phrase match, followed by enough content to survive the filter if a section
had opened. -/
def c5HeadMetaInput : List RawRecord :=
  [ tLine 4 "1. Table of Contents", tLine 4 "Alpha", tLine 4 "",
    tLine 4 "Beta", tLine 4 "", tLine 4 "Gamma", tLine 4 "",
    tLine 4 "Delta", tLine 4 "", tLine 4 "Echo" ]

/-- Heading-pattern line and content, all on page 1. -/
def c6Page1Input : List RawRecord :=
  [ tLine 1 "1. Introduction", tLine 1 "Alpha", tLine 1 "", tLine 1 "Beta",
    tLine 1 "", tLine 1 "Gamma", tLine 1 "", tLine 1 "Delta", tLine 1 "",
    tLine 1 "Echo" ]

/-- The identical lines, on page 4. -/
def c6Page4Input : List RawRecord :=
  [ tLine 4 "1. Introduction", tLine 4 "Alpha", tLine 4 "", tLine 4 "Beta",
    tLine 4 "", tLine 4 "Gamma", tLine 4 "", tLine 4 "Delta", tLine 4 "",
    tLine 4 "Echo" ]

/-- Expected segmentation of `c6Page4Input`. -/
def c6Expected : List Section :=
  [ { order := 0, heading := "1. Introduction",
      blocks := [tBlock "Alpha" 0, tBlock "Beta" 1, tBlock "Gamma" 2,
                 tBlock "Delta" 3, tBlock "Echo" 4] } ]

/-- The end-to-end scenario of the spec: three front-matter pages with a
metadata line, a level-1 heading on page 4 with six text paragraphs and one
image, then a level-1 heading on page 6 with only two paragraphs. -/
def c8Input : List RawRecord :=
  [ tLine 1 "Course cover", tLine 2 "Participant Handbook",
    tLine 3 "Front matter text",
    tLine 4 "1. Introduction",
    tLine 4 "Line a", tLine 4 "", tLine 4 "Line b", tLine 4 "",
    tLine 4 "Line c",
    tLine 5 "Line d", tLine 5 "", tLine 5 "Line e", tLine 5 "",
    tLine 5 "Line f",
    { pageNumber := 5, kind := RecordKind.image "png" },
    tLine 6 "2. Methodology",
    tLine 6 "Line g", tLine 6 "", tLine 6 "Line h" ]

/-- The single kept section of `c8Input`. -/
def c8Section : Section :=
  { order := 0, heading := "1. Introduction",
    blocks := [tBlock "Line a" 0, tBlock "Line b" 1, tBlock "Line c" 2,
               tBlock "Line d" 3, tBlock "Line e" 4, tBlock "Line f" 5,
               { kind := BlockKind.image, content := "", order := 6,
                 metadata := BlockMeta.forImage "png" }] }

/-! ## Ordering invariant of the segmenter -/

/-- The order fields of a block list are exactly 0, 1, ..., length - 1 in
sequence. -/
def BlocksOrdered (bs : List Block) : Prop :=
  bs.map Block.order = List.range bs.length

theorem blocksOrdered_nil : BlocksOrdered [] := rfl

theorem blocksOrdered_append (bs : List Block) (k : BlockKind) (s : String)
    (m : BlockMeta) (h : BlocksOrdered bs) :
    BlocksOrdered (bs ++ [{ kind := k, content := s, order := bs.length,
                            metadata := m }]) := by
  unfold BlocksOrdered at h ⊢
  simp [List.range_succ, h]

theorem blocksOrdered_pushBlock (c : OpenSection) (k : BlockKind)
    (s : String) (m : BlockMeta) (h : BlocksOrdered c.blocks) :
    BlocksOrdered (pushBlock c k s m).blocks :=
  blocksOrdered_append c.blocks k s m h

theorem blocksOrdered_flushPara (c : OpenSection)
    (h : BlocksOrdered c.blocks) : BlocksOrdered (flushPara c).blocks := by
  unfold flushPara
  cases hb : c.buffer with
  | nil => exact h
  | cons s rest => exact blocksOrdered_pushBlock c BlockKind.text _ _ h

/-- The segmenter state invariant: the open section and every kept section
have densely ordered blocks, and the kept sections are numbered 0, 1, ... in
sequence. -/
def StInv (st : SegState) : Prop :=
  (∀ c, st.current = some c → BlocksOrdered c.blocks) ∧
  st.kept.map Section.order = List.range st.kept.length ∧
  (∀ sec ∈ st.kept, BlocksOrdered sec.blocks)

theorem stInv_init : StInv initState :=
  ⟨fun c h => by simp [initState] at h, rfl,
   fun sec h => by simp [initState] at h⟩

theorem stInv_finalize (cfg : Config) (st : SegState) (h : StInv st) :
    StInv (finalizeSection cfg st) := by
  obtain ⟨hc, hk, hb⟩ := h
  unfold finalizeSection
  cases hcur : st.current with
  | none => exact ⟨hc, hk, hb⟩
  | some c =>
      dsimp only
      by_cases hlen : cfg.minBlocksPerSection ≤ (flushPara c).blocks.length
      · rw [if_pos hlen]
        refine ⟨fun c' hc' => by simp at hc', ?_, ?_⟩
        · simp [List.range_succ, hk]
        · intro sec hsec
          rcases List.mem_append.mp hsec with hmem | hmem
          · exact hb sec hmem
          · have hsec2 : sec = Section.mk st.kept.length
                (flushPara c).heading (flushPara c).blocks := by
              simpa using hmem
            rw [hsec2]
            exact blocksOrdered_flushPara c (hc c hcur)
      · rw [if_neg hlen]
        exact ⟨fun c' hc' => by simp at hc', hk, hb⟩

theorem stInv_processText (cfg : Config) (st : SegState) (page : Nat)
    (txt : String) (h : StInv st) : StInv (processText cfg st page txt) := by
  obtain ⟨hc, hk, hb⟩ := h
  unfold processText
  split
  · split
    · exact ⟨hc, hk, hb⟩
    · exact ⟨hc, hk, hb⟩
  · split
    · exact stInv_finalize cfg st ⟨hc, hk, hb⟩
    · split
      · have h2 := stInv_finalize cfg st ⟨hc, hk, hb⟩
        refine ⟨?_, h2.2.1, h2.2.2⟩
        intro c' hc'
        simp only [Option.some.injEq] at hc'
        rw [← hc']
        exact blocksOrdered_nil
      · split
        · exact ⟨hc, hk, hb⟩
        · cases hcur : st.current with
          | none =>
              split
              · exact ⟨hc, hk, hb⟩
              · exact ⟨hc, hk, hb⟩
          | some c =>
              have hbo := hc c hcur
              dsimp only
              split
              · refine ⟨?_, hk, hb⟩
                intro c' hc'
                simp only [Option.some.injEq] at hc'
                rw [← hc']
                exact blocksOrdered_pushBlock _ _ _ _
                  (blocksOrdered_flushPara c hbo)
              · split
                · refine ⟨?_, hk, hb⟩
                  intro c' hc'
                  simp only [Option.some.injEq] at hc'
                  rw [← hc']
                  exact blocksOrdered_flushPara c hbo
                · split
                  · refine ⟨?_, hk, hb⟩
                    intro c' hc'
                    simp only [Option.some.injEq] at hc'
                    rw [← hc']
                    exact blocksOrdered_flushPara c hbo
                  · refine ⟨?_, hk, hb⟩
                    intro c' hc'
                    simp only [Option.some.injEq] at hc'
                    rw [← hc']
                    exact hc c hcur

theorem stInv_processRecord (cfg : Config) (st : SegState) (r : RawRecord)
    (h : StInv st) : StInv (processRecord cfg st r) := by
  obtain ⟨hc, hk, hb⟩ := h
  unfold processRecord
  split
  · exact stInv_processText cfg st _ _ ⟨hc, hk, hb⟩
  · cases hcur : st.current with
    | none => exact ⟨hc, hk, hb⟩
    | some c =>
        dsimp only
        split
        · exact ⟨hc, hk, hb⟩
        · refine ⟨?_, hk, hb⟩
          intro c' hc'
          simp only [Option.some.injEq] at hc'
          rw [← hc']
          exact blocksOrdered_pushBlock _ _ _ _
            (blocksOrdered_flushPara c (hc c hcur))
  · cases hcur : st.current with
    | none => exact ⟨hc, hk, hb⟩
    | some c =>
        dsimp only
        split
        · exact ⟨hc, hk, hb⟩
        · refine ⟨?_, hk, hb⟩
          intro c' hc'
          simp only [Option.some.injEq] at hc'
          rw [← hc']
          exact blocksOrdered_pushBlock _ _ _ _
            (blocksOrdered_flushPara c (hc c hcur))

theorem stInv_segRun (cfg : Config) :
    ∀ (rs : List RawRecord) (st : SegState) (lastPage : Nat)
      (st' : SegState), StInv st →
      segRun cfg st lastPage rs = Except.ok st' → StInv st' := by
  intro rs
  induction rs with
  | nil =>
      intro st lastPage st' h hrun
      unfold segRun at hrun
      injection hrun with h2
      rw [← h2]
      exact h
  | cons r rs ih =>
      intro st lastPage st' h hrun
      unfold segRun at hrun
      split at hrun
      · exact absurd hrun (by simp)
      · exact ih _ _ _ (stInv_processRecord cfg st r h) hrun

/-- Every successful segmentation satisfies the ordering invariant: kept
sections are numbered 0..N-1 and every kept section has densely ordered
blocks. -/
theorem segment_ok_inv (cfg : Config) (records : List RawRecord)
    (sections : List Section)
    (h : segment cfg records = Except.ok sections) :
    sections.map Section.order = List.range sections.length ∧
    ∀ sec ∈ sections, BlocksOrdered sec.blocks := by
  unfold segment at h
  cases hrun : segRun cfg initState 0 records with
  | error e => rw [hrun] at h; exact absurd h (by simp [Except.map])
  | ok st =>
      rw [hrun] at h
      have h2 : (finalizeSection cfg st).kept = sections := by
        simpa [Except.map] using h
      have h3 := stInv_finalize cfg st
        (stInv_segRun cfg records initState 0 st stInv_init hrun)
      rw [← h2]
      exact ⟨h3.2.1, h3.2.2⟩

/-! ## Behavioral lemmas about single steps -/

/-- Setting the metadata flag to its current value changes nothing. -/
theorem setSpanTrue_eq (st : SegState) (h : st.inMetadataSpan = true) :
    { st with inMetadataSpan := true } = st := by
  cases st
  simp_all

/-- Finalizing with no open section changes nothing. -/
theorem finalize_of_none (cfg : Config) (st : SegState)
    (h : st.current = none) : finalizeSection cfg st = st := by
  unfold finalizeSection
  rw [h]

/-- Finalizing always closes the open section. -/
theorem finalize_current_none (cfg : Config) (st : SegState) :
    (finalizeSection cfg st).current = none := by
  unfold finalizeSection
  cases h : st.current with
  | none => exact h
  | some c =>
      dsimp only
      split
      · rfl
      · rfl

/-! ## Error behavior (page monotonicity) -/

theorem pagesDecrease_cons (r : RawRecord) (rs : List RawRecord) :
    pagesDecrease (r :: rs) = true ↔
      pagesDecrease rs = true ∨
        ∃ b tl, rs = b :: tl ∧ b.pageNumber < r.pageNumber := by
  cases rs with
  | nil => simp [pagesDecrease]
  | cons b tl =>
      rw [show pagesDecrease (r :: b :: tl) =
        (decide (b.pageNumber < r.pageNumber) || pagesDecrease (b :: tl))
        from rfl]
      rw [Bool.or_eq_true, decide_eq_true_iff]
      constructor
      · rintro (h | h)
        · exact Or.inr ⟨b, tl, rfl, h⟩
        · exact Or.inl h
      · rintro (h | ⟨b2, tl2, heq, h⟩)
        · exact Or.inr h
        · rw [List.cons.injEq] at heq
          rw [heq.1]
          exact Or.inl h

theorem segRun_error_iff (cfg : Config) :
    ∀ (rs : List RawRecord) (st : SegState) (lastPage : Nat),
      segRun cfg st lastPage rs =
          Except.error MalformedInputError.pageDecreased ↔
        (pagesDecrease rs = true ∨
          ∃ r tl, rs = r :: tl ∧ r.pageNumber < lastPage) := by
  intro rs
  induction rs with
  | nil =>
      intro st lastPage
      simp [segRun, pagesDecrease]
  | cons r rs ih =>
      intro st lastPage
      unfold segRun
      by_cases hlt : r.pageNumber < lastPage
      · rw [if_pos hlt]
        constructor
        · intro _
          exact Or.inr ⟨r, rs, rfl, hlt⟩
        · intro _
          rfl
      · rw [if_neg hlt]
        rw [ih (processRecord cfg st r) r.pageNumber]
        rw [pagesDecrease_cons]
        constructor
        · rintro (h | ⟨b, tl, heq, h⟩)
          · exact Or.inl (Or.inl h)
          · rw [heq]
            exact Or.inl (Or.inr ⟨b, tl, rfl, h⟩)
        · rintro ((h | ⟨b, tl, heq, h⟩) | ⟨b, tl, heq, h⟩)
          · exact Or.inl h
          · exact Or.inr ⟨b, tl, heq, h⟩
          · rw [List.cons.injEq] at heq
            rw [← heq.1] at h
            exact absurd h hlt

/-- Characterization of segmentation failure: the run errors exactly when
some consecutive pair of records has a decreasing page number (the initial
comparison against page 0 never fires on natural page numbers). -/
theorem segment_error_iff (cfg : Config) (records : List RawRecord) :
    segment cfg records = Except.error MalformedInputError.pageDecreased ↔
      pagesDecrease records = true := by
  unfold segment
  have h := segRun_error_iff cfg records initState 0
  simp only [Nat.not_lt_zero, and_false, exists_const, exists_false,
    or_false] at h
  cases hrun : segRun cfg initState 0 records with
  | error e =>
      cases e
      rw [hrun] at h
      simp [Except.map, h.mp rfl]
  | ok st =>
      rw [hrun] at h
      constructor
      · intro h2
        exact absurd h2 (by simp [Except.map])
      · intro h2
        exact absurd (h.mpr h2) (by simp)

/-- Appending the ellipsis marker never yields the empty string. -/
theorem append_dots_ne_empty (s : String) : ¬(s ++ "..." = "") := by
  intro h
  have h2 : (s ++ "...").length = ("" : String).length := by rw [h]
  rw [String.length_append] at h2
  have h3 : ("..." : String).length = 3 := rfl
  have h4 : ("" : String).length = 0 := rfl
  rw [h3, h4] at h2
  omega

/-! ## Claim theorems -/

/-- Claim C1: for every valid input, within each kept Section the block
order values are exactly 0, 1, ... with no gaps (consecutive blocks differ
by one and the first is 0), and the kept Section order values are exactly
0..N-1 contiguous with no gaps. -/
theorem c1_ordering_preservation (cfg : Config) (records : List RawRecord)
    (sections : List Section)
    (h : segment cfg records = Except.ok sections) :
    sections.map Section.order = List.range sections.length ∧
    ∀ sec ∈ sections, sec.blocks.map Block.order =
      List.range sec.blocks.length := by
  have h2 := segment_ok_inv cfg records sections h
  exact ⟨h2.1, fun sec hs => h2.2 sec hs⟩

/-- Witness for claim C1 at a concrete two-section input. -/
theorem c1_ordering_preservation_witness :
    c1Expected.map Section.order = List.range c1Expected.length ∧
    ∀ sec ∈ c1Expected, sec.blocks.map Block.order =
      List.range sec.blocks.length :=
  c1_ordering_preservation defaultConfig c1Input c1Expected rfl

/-- Claim C2: a section accumulating fewer than minBlocksPerSection blocks
is discarded entirely at finalization (no section, no blocks, no sequence
number consumed); a sufficiently large section is appended with exactly the
next sequence number; and every successful segmentation has gap-free
section numbering. -/
theorem c2_minimum_block_filtering (cfg : Config) :
    (∀ st c, st.current = some c →
        (flushPara c).blocks.length < cfg.minBlocksPerSection →
        (finalizeSection cfg st).kept = st.kept ∧
          (finalizeSection cfg st).current = none) ∧
    (∀ st c, st.current = some c →
        cfg.minBlocksPerSection ≤ (flushPara c).blocks.length →
        (finalizeSection cfg st).kept = st.kept ++
          [Section.mk st.kept.length (flushPara c).heading
            (flushPara c).blocks]) ∧
    (∀ records sections, segment cfg records = Except.ok sections →
        sections.map Section.order = List.range sections.length) := by
  refine ⟨?_, ?_, ?_⟩
  · intro st c hcur hlt
    unfold finalizeSection
    rw [hcur]
    dsimp only
    rw [if_neg (by omega)]
    exact ⟨rfl, rfl⟩
  · intro st c hcur hle
    unfold finalizeSection
    rw [hcur]
    dsimp only
    rw [if_pos hle]
  · intro records sections h
    exact (segment_ok_inv cfg records sections h).1

/-- A section that so far holds one emitted block and one buffered line. -/
def c2Open : OpenSection :=
  { heading := "2. Methodology", blocks := [tBlock "Line g" 0],
    buffer := ["Line h"], bufferPage := 6 }

/-- State with `c2Open` as the open section. -/
def c2State : SegState :=
  { current := some c2Open, inMetadataSpan := false, openedAny := true,
    kept := [] }

/-- Witness for claim C2: a two-block section is dropped under the default
threshold of five, consuming no order number. -/
theorem c2_minimum_block_filtering_witness :
    (finalizeSection defaultConfig c2State).kept = ([] : List Section) ∧
    (finalizeSection defaultConfig c2State).current = none :=
  (c2_minimum_block_filtering defaultConfig).1 c2State c2Open rfl
    (by decide)

/-- Claim C3: heading candidacy requires at least 5 characters and one of
the numbered, all-capitals, or UNIT/CHAPTER patterns; the bare line of a
digit and a period is never a heading, is discarded as front matter when no
section is open, and is kept as ordinary text when a section is open. -/
theorem c3_heading_candidacy :
    (∀ line : String, is_heading line = true → 5 ≤ line.data.length) ∧
    is_heading "1." = false ∧
    is_heading "1. Introduction" = true ∧
    is_heading "1.A" = false ∧
    is_heading "INTRODUCTION TO NETWORKS" = true ∧
    is_heading "HELLO" = false ∧
    is_heading "Chapter 2 Basics" = true ∧
    is_heading "Hello there" = false ∧
    segment defaultConfig [tLine 4 "1."] = Except.ok [] ∧
    segment defaultConfig c3Input = Except.ok c3Expected := by
  refine ⟨?_, rfl, rfl, rfl, rfl, rfl, rfl, rfl, rfl, rfl⟩
  intro line h
  simp only [is_heading, Bool.and_eq_true, decide_eq_true_eq] at h
  exact h.1

/-- Witness for claim C3: the length bound at a concrete heading. -/
theorem c3_heading_candidacy_witness :
    5 ≤ ("1. Introduction" : String).data.length :=
  c3_heading_candidacy.1 "1. Introduction" rfl

/-- Claim C4: single numeric components (and lines without a leading
number, such as all-capitals headings) get level 1 and open sections, while
compound numeric components get level 2 and are appended to the open
section as a text block, never opening a new section. -/
theorem c4_heading_levels :
    get_heading_level "1 Introduction" = 1 ∧
    get_heading_level "1. Introduction" = 1 ∧
    get_heading_level "INTRODUCTION" = 1 ∧
    get_heading_level "1.1 Overview" = 2 ∧
    is_heading "1.1 Overview" = true ∧
    segment defaultConfig c4Input = Except.ok c4Expected ∧
    (∀ cfg st page txt c, st.current = some c →
        st.inMetadataSpan = false →
        is_metadata_section cfg.metadataPhrases txt = false →
        ¬(page ≤ cfg.pageThreshold ∧ st.openedAny = false) →
        is_heading txt = true → get_heading_level txt = 2 →
        (processText cfg st page txt).kept = st.kept ∧
        (processText cfg st page txt).current =
          some (pushBlock (flushPara c) BlockKind.text txt
            BlockMeta.noMeta)) := by
  refine ⟨rfl, rfl, rfl, rfl, rfl, rfl, ?_⟩
  intro cfg st page txt c hcur hspan hmeta hgate hhead hlev
  unfold processText
  rw [if_neg hgate, if_neg (by simp [hmeta]), if_neg (by simp [hlev]),
      if_neg (by simp [hspan]), if_pos ⟨hhead, hlev⟩, hcur]
  exact ⟨rfl, rfl⟩

/-- An open section with no blocks and an empty buffer. -/
def c4Open : OpenSection :=
  { heading := "1. Introduction", blocks := [], buffer := [],
    bufferPage := 4 }

/-- State with `c4Open` as the open section. -/
def c4State : SegState :=
  { current := some c4Open, inMetadataSpan := false, openedAny := true,
    kept := [] }

/-- Witness for claim C4: the level-2 line is appended as a text block. -/
theorem c4_heading_levels_witness :
    (processText defaultConfig c4State 4 "1.1 Overview").kept = [] ∧
    (processText defaultConfig c4State 4 "1.1 Overview").current =
      some (pushBlock (flushPara c4Open) BlockKind.text "1.1 Overview"
        BlockMeta.noMeta) :=
  c4_heading_levels.2.2.2.2.2.2 defaultConfig c4State 4 "1.1 Overview"
    c4Open rfl rfl (by decide) (by decide) (by decide) (by decide)

/-- Claim C5: metadata-phrase lines (case-insensitively matched) start a
metadata span and take precedence over heading detection, never opening a
section; while a metadata span is active with no open section, every record
that is not a level-1 heading leaves the state exactly unchanged (so it
reaches no kept section); and the concrete scenarios confirm the exclusion
end to end. -/
theorem c5_metadata_exclusion :
    is_metadata_section defaultMetadataPhrases "Key Learning Outcomes"
        = true ∧
    is_metadata_section defaultMetadataPhrases
        "see the participant handbook, page 3" = true ∧
    is_metadata_section defaultMetadataPhrases "1. Table of Contents"
        = true ∧
    is_heading "1. Table of Contents" = true ∧
    (∀ cfg st page txt,
        is_metadata_section cfg.metadataPhrases txt = true →
        (processText cfg st page txt).inMetadataSpan = true ∧
        ((processText cfg st page txt).current = st.current ∨
          (processText cfg st page txt).current = none)) ∧
    (∀ cfg st page txt, st.inMetadataSpan = true → st.current = none →
        ¬(is_heading txt = true ∧ get_heading_level txt = 1) →
        processText cfg st page txt = st) ∧
    (∀ cfg (st : SegState) page fmt rows cols, st.current = none →
        processRecord cfg st
            { pageNumber := page, kind := RecordKind.image fmt } = st ∧
        processRecord cfg st
            { pageNumber := page, kind := RecordKind.table rows cols }
          = st) ∧
    segment defaultConfig c5Input = Except.ok c5Expected ∧
    segment defaultConfig c5HeadMetaInput = Except.ok [] := by
  refine ⟨rfl, rfl, rfl, rfl, ?_, ?_, ?_, rfl, rfl⟩
  · intro cfg st page txt hm
    unfold processText
    by_cases hg : page ≤ cfg.pageThreshold ∧ st.openedAny = false
    · rw [if_pos hg, if_pos hm]
      exact ⟨rfl, Or.inl rfl⟩
    · rw [if_neg hg, if_pos hm]
      exact ⟨rfl, Or.inr (finalize_current_none cfg st)⟩
  · intro cfg st page txt hspan hcur hnl1
    unfold processText
    by_cases hg : page ≤ cfg.pageThreshold ∧ st.openedAny = false
    · rw [if_pos hg]
      by_cases hm : is_metadata_section cfg.metadataPhrases txt = true
      · rw [if_pos hm]
        exact setSpanTrue_eq st hspan
      · rw [if_neg hm]
    · rw [if_neg hg]
      by_cases hm : is_metadata_section cfg.metadataPhrases txt = true
      · rw [if_pos hm, finalize_of_none cfg st hcur]
        exact setSpanTrue_eq st hspan
      · rw [if_neg hm, if_neg hnl1, if_pos hspan]
  · intro cfg st page fmt rows cols hcur
    constructor
    · unfold processRecord
      rw [hcur]
    · unfold processRecord
      rw [hcur]

/-- State inside a metadata span with no open section. -/
def c5MdState : SegState :=
  { current := none, inMetadataSpan := true, openedAny := true, kept := [] }

/-- Witness for claim C5: a boilerplate line inside a metadata span is
discarded with no state change, and so is an image with no open section. -/
theorem c5_metadata_exclusion_witness :
    processText defaultConfig c5MdState 5 "meta one" = c5MdState ∧
    processRecord defaultConfig c5MdState
        { pageNumber := 5, kind := RecordKind.image "png" } = c5MdState :=
  ⟨c5_metadata_exclusion.2.2.2.2.2.1 defaultConfig c5MdState 5 "meta one"
      rfl rfl (by decide),
   (c5_metadata_exclusion.2.2.2.2.2.2.1 defaultConfig c5MdState 5 "png"
      0 0 rfl).1⟩

/-- Claim C6: with no section opened yet, a line on a page at or below the
threshold opens nothing and keeps nothing (heading detection suppressed);
once a section is open, content append is never suppressed by the
threshold, whatever the page; and the identical heading line opens nothing
on page 1 but a section on page 4 under the default threshold 3. -/
theorem c6_page_threshold_gating :
    (∀ cfg st page txt, page ≤ cfg.pageThreshold → st.openedAny = false →
        (processText cfg st page txt).current = st.current ∧
        (processText cfg st page txt).kept = st.kept) ∧
    (∀ cfg st page txt c, st.current = some c → st.openedAny = true →
        st.inMetadataSpan = false →
        is_metadata_section cfg.metadataPhrases txt = false →
        is_heading txt = false → isBlankLine txt = false →
        c.buffer = [] →
        (processText cfg st page txt).kept = st.kept ∧
        (processText cfg st page txt).current =
          some { c with buffer := [txt], bufferPage := page }) ∧
    segment defaultConfig c6Page1Input = Except.ok [] ∧
    segment defaultConfig c6Page4Input = Except.ok c6Expected := by
  refine ⟨?_, ?_, rfl, rfl⟩
  · intro cfg st page txt h1 h2
    unfold processText
    rw [if_pos ⟨h1, h2⟩]
    by_cases hm : is_metadata_section cfg.metadataPhrases txt = true
    · rw [if_pos hm]
      exact ⟨rfl, rfl⟩
    · rw [if_neg hm]
      exact ⟨rfl, rfl⟩
  · intro cfg st page txt c hcur hopen hspan hmeta hhead hblank hbuf
    unfold processText
    rw [if_neg (by simp [hopen]), if_neg (by simp [hmeta]),
        if_neg (by simp [hhead]), if_neg (by simp [hspan]),
        if_neg (by simp [hhead]), hcur]
    dsimp only
    rw [if_neg (by simp [hblank]), if_neg (by simp [hbuf])]
    refine ⟨rfl, ?_⟩
    rw [hbuf]
    rfl

/-- An open section with an empty buffer, for the C6 witness. -/
def c6Open : OpenSection :=
  { heading := "1. Introduction", blocks := [], buffer := [],
    bufferPage := 4 }

/-- State with `c6Open` open, for the C6 witness. -/
def c6State : SegState :=
  { current := some c6Open, inMetadataSpan := false, openedAny := true,
    kept := [] }

/-- Witness for claim C6: on page 1 with nothing opened the state keeps
nothing, and with a section open a line on page 2 (below the threshold) is
still buffered. -/
theorem c6_page_threshold_gating_witness :
    ((processText defaultConfig initState 1 "1. Introduction").current
        = none ∧
      (processText defaultConfig initState 1 "1. Introduction").kept
        = []) ∧
    ((processText defaultConfig c6State 2 "Alpha").kept = [] ∧
      (processText defaultConfig c6State 2 "Alpha").current =
        some { c6Open with buffer := ["Alpha"], bufferPage := 2 }) :=
  ⟨c6_page_threshold_gating.1 defaultConfig initState 1 "1. Introduction"
      (by decide) rfl,
   c6_page_threshold_gating.2.1 defaultConfig c6State 2 "Alpha" c6Open rfl
      rfl rfl (by decide) (by decide) (by decide) rfl⟩

/-- Claim C7: segmentation fails with MalformedInputError exactly when some
record has a page number strictly below the one of the immediately
preceding record; on every page-monotone input it returns a (possibly
empty) section list. -/
theorem c7_malformed_input_iff (cfg : Config) (records : List RawRecord) :
    (segment cfg records = Except.error MalformedInputError.pageDecreased ↔
      pagesDecrease records = true) ∧
    ((∃ sections, segment cfg records = Except.ok sections) ↔
      pagesDecrease records = false) := by
  have h := segment_error_iff cfg records
  refine ⟨h, ?_⟩
  constructor
  · rintro ⟨secs, hs⟩
    cases hpd : pagesDecrease records with
    | false => rfl
    | true =>
        rw [h.mpr hpd] at hs
        exact Except.noConfusion hs
  · intro hp
    cases hseg : segment cfg records with
    | ok secs => exact ⟨secs, rfl⟩
    | error e =>
        cases e
        have hx := h.mp hseg
        rw [hp] at hx
        exact Bool.noConfusion hx

/-- Claim C8 counterexample: on the end-to-end scenario input the single
kept section carries the literal heading line of the level-1 heading that
opened it, which is not the bare word the claim states. -/
theorem c8_counterexample :
    segment defaultConfig c8Input = Except.ok [c8Section] ∧
    c8Section.heading ≠ "Introduction" :=
  ⟨rfl, by decide⟩

/-- Claim C8 as amended: the scenario yields exactly one kept section with
order 0, heading equal to the literal heading line, and exactly 7 blocks,
6 text and 1 image; the undersized second section is discarded. -/
theorem c8_end_to_end :
    segment defaultConfig c8Input = Except.ok [c8Section] ∧
    c8Section.order = 0 ∧
    c8Section.heading = "1. Introduction" ∧
    c8Section.blocks.length = 7 ∧
    (c8Section.blocks.filter
      (fun b => decide (b.kind = BlockKind.text))).length = 6 ∧
    (c8Section.blocks.filter
      (fun b => decide (b.kind = BlockKind.image))).length = 1 :=
  ⟨rfl, rfl, rfl, rfl, rfl, rfl⟩

/-- Claim C9 counterexample: when the model call fails and the given
heading is the empty string, the returned headline is empty, refuting the
claim that every call returns a non-empty headline. -/
theorem c9_counterexample :
    (generateSummary "Some content" "" LlmResponse.apiFailure).headline
      = "" := rfl

/-- Claim C9 as amended: generateSummary never rejects; on failure it
resolves with the given heading and the fixed failure summary; the summary
is always non-empty; and the headline is non-empty whenever the given
heading is non-empty. -/
theorem c9_failure_fallback (sectionText heading : String)
    (resp : LlmResponse) :
    generateSummary sectionText heading LlmResponse.apiFailure =
      { headline := heading, summary := fallbackSummary } ∧
    (generateSummary sectionText heading resp).summary ≠ "" ∧
    (heading ≠ "" →
      (generateSummary sectionText heading resp).headline ≠ "") := by
  refine ⟨rfl, ?_, ?_⟩
  · cases resp with
    | apiFailure =>
        simp only [generateSummary]
        decide
    | parsed mh ms =>
        cases ms with
        | none =>
            simp only [generateSummary]
            decide
        | some s =>
            simp only [generateSummary]
            by_cases hs : s = ""
            · rw [if_pos hs]
              decide
            · rw [if_neg hs]
              exact hs
  · intro hne
    cases resp with
    | apiFailure => exact hne
    | parsed mh ms =>
        simp only [generateSummary]
        by_cases h12 : 12 < (headlineWords mh).length
        · rw [if_pos h12, if_neg (append_dots_ne_empty _)]
          exact append_dots_ne_empty _
        · rw [if_neg h12]
          by_cases hmh : mh = ""
          · rw [if_pos hmh]
            exact hne
          · rw [if_neg hmh]
            exact hmh

/-- Witness for claim C9: a failed call with a non-empty heading. -/
theorem c9_failure_fallback_witness :
    generateSummary "Body text" "Intro" LlmResponse.apiFailure =
      { headline := "Intro", summary := fallbackSummary } ∧
    (generateSummary "Body text" "Intro" LlmResponse.apiFailure).headline
      ≠ "" :=
  ⟨(c9_failure_fallback "Body text" "Intro" LlmResponse.apiFailure).1,
   (c9_failure_fallback "Body text" "Intro" LlmResponse.apiFailure).2.2
     (by decide)⟩

/-- Claim C10: a parsed headline of more than 12 space-separated words is
truncated to the first 12 joined by single spaces with an ellipsis
appended; one of 12 or fewer words is returned unmodified, falling back to
the heading when empty; and the prompt content is the section text
truncated to its first 3000 characters (with an ellipsis marker) when
longer. -/
theorem c10_headline_truncation (mh : String) (ms : Option String)
    (sectionText heading : String) :
    (12 < (headlineWords mh).length →
      (generateSummary sectionText heading
        (LlmResponse.parsed mh ms)).headline =
          joinSp ((headlineWords mh).take 12) ++ "...") ∧
    ((headlineWords mh).length ≤ 12 → mh ≠ "" →
      (generateSummary sectionText heading
        (LlmResponse.parsed mh ms)).headline = mh) ∧
    ((headlineWords mh).length ≤ 12 → mh = "" →
      (generateSummary sectionText heading
        (LlmResponse.parsed mh ms)).headline = heading) ∧
    (3000 < sectionText.length →
      promptContent sectionText = takeChars sectionText 3000 ++ "...") ∧
    (sectionText.length ≤ 3000 → promptContent sectionText
      = sectionText) := by
  refine ⟨?_, ?_, ?_, ?_, ?_⟩
  · intro h12
    simp only [generateSummary]
    rw [if_pos h12, if_neg (append_dots_ne_empty _)]
  · intro hle hne
    simp only [generateSummary]
    rw [if_neg (show ¬12 < (headlineWords mh).length by omega)]
    rw [if_neg hne]
  · intro hle hmh
    rw [hmh]
    rfl
  · intro h
    unfold promptContent
    rw [if_pos h]
  · intro h
    unfold promptContent
    rw [if_neg (by omega)]

/-- Witness for claim C10: a 13-word headline is truncated to 12 words and
an ellipsis, and a short text is passed through untruncated. -/
theorem c10_headline_truncation_witness :
    (generateSummary "body" "Head"
      (LlmResponse.parsed "a b c d e f g h i j k l m" (some "sum"))).headline
        = "a b c d e f g h i j k l..." ∧
    promptContent "short body" = "short body" := by
  constructor
  · have h := (c10_headline_truncation "a b c d e f g h i j k l m"
      (some "sum") "body" "Head").1 (by decide)
    rw [h]
    rfl
  · exact (c10_headline_truncation "x" none "short body" "Head").2.2.2.2
      (by decide)

end PdfPlatform
